import Mathlib

/-!
Verification development for the eslint-plugin-sorting repository.

The development shallowly embeds the three rules of the plugin
(sort-imports, sort-object-keys, sort-pattern-keys) and the shared
utilities of src/utils.js.  JavaScript strings are modelled as lists of
UTF-16 code units (natural numbers); JavaScript string comparison is
code-unit lexicographic, and String.prototype.toLowerCase is modelled on
the ASCII range, which covers every string the rules compare.
-/

/-- A JavaScript string, as its list of UTF-16 code units. -/
abbrev JSString := List Nat

/-- Build a JSString from a Lean string literal (code points = code units on ASCII). -/
def jstr (s : String) : JSString := s.data.map Char.toNat

/-- JavaScript string comparison a < b: code-unit lexicographic; a proper
initial segment is smaller than the longer string. -/
def jsLtB : JSString → JSString → Bool
  | [], [] => false
  | [], _ :: _ => true
  | _ :: _, [] => false
  | a :: as, b :: bs => if a < b then true else if b < a then false else jsLtB as bs

/-- ASCII lower-casing of one code unit (A-Z mapped to a-z). -/
def toLowerCode (c : Nat) : Nat := if 65 ≤ c ∧ c ≤ 90 then c + 32 else c

/-- Model of String.prototype.toLowerCase on the ASCII range. -/
def jsToLower (s : JSString) : JSString := s.map toLowerCode

/-- Model of JavaScript number-to-string coercion for a natural number
(decimal digits), as used when a number is concatenated with a string. -/
def natCodeUnits (n : Nat) : JSString := (Nat.toDigits 10 n).map Char.toNat

/-- A sort key handed to getSorter: either a string or one of the two
numeric sentinels Infinity / -Infinity used for pinning. -/
inductive SortKey where
  | str (s : JSString)
  | posInf
  | negInf
deriving DecidableEq

/-- JavaScript < on two sort keys.  In every call site of getSorter the
sentinel cases are already handled before this comparison is reached, so
only the string/string case matters; the remaining cases are vacuous. -/
def sortKeyLt : SortKey → SortKey → Bool
  | .str a, .str b => jsLtB a b
  | _, _ => false

/-- Model of src/utils.js getSorter: builds the comparator passed to
Array.prototype.sort from a key-extraction function.  Returns the
comparator's numeric result. -/
def getSorter {α : Type} (sortFunction : α → SortKey) (a b : α) : Int :=
  let aName := sortFunction a
  let bName := sortFunction b
  if aName = .posInf ∨ bName = .negInf then 1
  else if bName = .posInf ∨ aName = .negInf then -1
  else if aName = bName then 0
  else if sortKeyLt aName bName then -1
  else 1

/-- Model of Array.prototype.sort with the comparator produced by
getSorter: a stable sort placing a before b when the comparator is ≤ 0
(the ECMA-262 sort order for a consistent comparator; stability and the
sorted result are all the language guarantees, so any stable sort is a
faithful model). -/
def jsSortBy {α : Type} (sortFunction : α → SortKey) (l : List α) : List α :=
  l.insertionSort (fun a b => getSorter sortFunction a b ≤ 0)

/-- Expressions recognized by src/utils.js getExpressionSortName.
A literal carries the JavaScript string rendering of its value
(String(node.value)); a template literal carries its quasi strings and
interpolated expressions; every other expression shape is the default
arm. -/
inductive Expression where
  | identifier (name : JSString)
  | literal (value : JSString)
  | templateLiteral (quasis : List JSString) (expressions : List Expression)
  | otherExpression

/-- The template-literal reduce of getExpressionSortName, given the
already-computed sort names of the interpolated expressions: for each
quasi, append the quasi text and the matching name; a missing name (an
index past the end of the expressions) contributes the empty string, as
getExpressionSortName(undefined) does. -/
def interleaveNames : List JSString → List JSString → JSString
  | [], _ => []
  | q :: qs, [] => q ++ interleaveNames qs []
  | q :: qs, n :: ns => q ++ n ++ interleaveNames qs ns

mutual

/-- Recursive core of getExpressionSortName on a present expression. -/
def expressionSortNameCore : Expression → JSString
  | .identifier name => name
  | .literal value => value
  | .templateLiteral quasis expressions =>
    interleaveNames quasis (expressionNames expressions)
  | .otherExpression => []
termination_by structural e => e

/-- The sort names of a list of interpolated expressions. -/
def expressionNames : List Expression → List JSString
  | [] => []
  | e :: es => expressionSortNameCore e :: expressionNames es
termination_by structural es => es

end

/-- Model of src/utils.js getExpressionSortName: the sortable name of a possibly
absent expression; undefined (none) yields the empty string, as do
unrecognized expression shapes. -/
def getExpressionSortName : Option Expression → JSString
  | none => []
  | some e => expressionSortNameCore e

/-- A syntax node seen only through its byte range, as used by
getSpanningRange (comments are nodes too). -/
structure SrcNode where
  rangeStart : Nat
  rangeEnd : Nat
deriving DecidableEq

/-- Model of src/utils.js getSpanningRange: [nodes[0].range[0],
nodes[nodes.length-1].range[1]].  On the empty list the JavaScript code
would fail reading nodes[0].range, modelled as none. -/
def getSpanningRange : List SrcNode → Option (Nat × Nat)
  | [] => none
  | n :: rest =>
    some (n.rangeStart, ((n :: rest).getLast (List.cons_ne_nil n rest)).rangeEnd)

/-! ## sort-imports: data model -/

/-- An import specifier: default, namespace, or named (destructured).
A named specifier carries its imported (external) name and its local
alias; default and namespace specifiers carry their local bound name. -/
inductive ImportSpecifier where
  | importDefaultSpecifier (localName : JSString)
  | importNamespaceSpecifier (localName : JSString)
  | importSpecifier (importedName : JSString) (localName : JSString)
deriving DecidableEq

/-- Whether a specifier has type ImportSpecifier (a named, destructured
specifier). -/
def isNamedImportSpecifier : ImportSpecifier → Bool
  | .importSpecifier _ _ => true
  | _ => false

/-- An import declaration: its specifier list and the string value of its
source literal. -/
structure ImportDeclaration where
  specifiers : List ImportSpecifier
  sourceValue : JSString
deriving DecidableEq

/-- DECL_PRIORITIES.SideEffect -/
def DECL_PRIORITIES_SideEffect : Nat := 0
/-- DECL_PRIORITIES.External -/
def DECL_PRIORITIES_External : Nat := 1
/-- DECL_PRIORITIES.Internal -/
def DECL_PRIORITIES_Internal : Nat := 3
/-- DECL_PRIORITIES.StaticAsset -/
def DECL_PRIORITIES_StaticAsset : Nat := 4

/-- DECL_TYPE_NAMES: the human-readable group labels, indexed by group
ordinal in the diagnostic message. -/
def DECL_TYPE_NAMES : List JSString :=
  [jstr "side effect", jstr "external package", jstr "internal", jstr "static asset"]

/-- isImportSideEffect: an import with no bindings (empty specifier
list). -/
def isImportSideEffect (node : ImportDeclaration) : Bool :=
  node.specifiers.isEmpty

/-- Whether the source string starts with the relative-path marker (the
code unit of the period). -/
def startsWithDot : JSString → Bool
  | c :: _ => c = 46
  | [] => false

/-- isImportExternal: the source does not start with a period and the
module-resolution probe succeeds.  The try/catch around require.resolve
is modelled by the boolean oracle resolves. -/
def isImportExternal (resolves : JSString → Bool) (node : ImportDeclaration) : Bool :=
  if startsWithDot node.sourceValue then false else resolves node.sourceValue

/-- The file extensions of the static-asset test, each with its leading
period (the alternation jpe?g is the two suffixes jpg and jpeg). -/
def STATIC_ASSET_SUFFIXES : List JSString :=
  [jstr ".svg", jstr ".woff", jstr ".woff2", jstr ".tts", jstr ".eot", jstr ".bmp",
   jstr ".jpg", jstr ".jpeg", jstr ".gif", jstr ".png", jstr ".json", jstr ".txt"]

/-- The anchored regular-expression test of getImportDeclarationSortIdx:
the (already lower-cased) source ends with one of the static-asset
extensions. -/
def isStaticAssetSource (importSource : JSString) : Bool :=
  STATIC_ASSET_SUFFIXES.any (fun suf => suf.isSuffixOf importSource)

/-- getImportDeclarationSortIdx: the group ordinal of a declaration,
decided in source order: side effect, then static asset (regex on the
lower-cased source), then external, else internal. -/
def getImportDeclarationSortIdx (resolves : JSString → Bool)
    (node : ImportDeclaration) : Nat :=
  let importSource := jsToLower node.sourceValue
  if isImportSideEffect node then DECL_PRIORITIES_SideEffect
  else if isStaticAssetSource importSource then DECL_PRIORITIES_StaticAsset
  else if isImportExternal resolves node then DECL_PRIORITIES_External
  else DECL_PRIORITIES_Internal

/-- getImportSpecifierSortName: local name for default and namespace
specifiers, imported name for named specifiers. -/
def getImportSpecifierSortName : ImportSpecifier → JSString
  | .importDefaultSpecifier localName => localName
  | .importNamespaceSpecifier localName => localName
  | .importSpecifier importedName _ => importedName

/-- The reduce of getImportDeclarationSortName continued from an already
accumulated candidate: keep the case-insensitively smaller name at each
named specifier, ignore default and namespace specifiers. -/
def minNamedSortNameFrom (sortName : JSString) : List ImportSpecifier → JSString
  | [] => sortName
  | spec :: rest =>
    match spec with
    | .importSpecifier _ _ =>
      if jsLtB (jsToLower (getImportSpecifierSortName spec)) (jsToLower sortName) then
        minNamedSortNameFrom (getImportSpecifierSortName spec) rest
      else
        minNamedSortNameFrom sortName rest
    | _ => minNamedSortNameFrom sortName rest

/-- getImportDeclarationSortName: source value for side-effect imports;
the first specifier's name when it is a default or namespace specifier;
otherwise the reduce over the specifiers with a null accumulator, which
(the first specifier being named) is the reduce continued from that
specifier's imported name. -/
def getImportDeclarationSortName (node : ImportDeclaration) : JSString :=
  match node.specifiers with
  | [] => node.sourceValue
  | spec :: rest =>
    match spec with
    | .importDefaultSpecifier localName => localName
    | .importNamespaceSpecifier localName => localName
    | .importSpecifier importedName _ => minNamedSortNameFrom importedName rest

/-! ## sort-imports: Program handler -/

/-- A diagnostic emitted by the sort-imports Program handler, identified
by its message template and interpolated data.  The group labels are
Option values because the array lookup DECL_TYPE_NAMES[idx] yields
undefined past the end of the label table. -/
inductive ImportReport where
  | groupOrder (a b : Option JSString)
  | importOrder (impA impB decA decB : JSString)
  | sourceOrder (a b : JSString)
  | specOrder (a b : JSString)
deriving DecidableEq

/-- Whether a report is a specifier-order diagnostic. -/
def ImportReport.isSpecOrder : ImportReport → Bool
  | .specOrder _ _ => true
  | _ => false

/-- A top-level statement of the module body: an import declaration or
any other statement. -/
inductive Statement where
  | importDeclaration (d : ImportDeclaration)
  | otherStatement
deriving DecidableEq

/-- Whether a statement is an import declaration. -/
def isImportStatement : Statement → Bool
  | .importDeclaration _ => true
  | .otherStatement => false

/-- The accumulator of the import-collecting reduce: the collected
imports, the nonImportFound expando flag on the array, and the fixable
flag closed over by the reduce. -/
structure ExtractState where
  imports : List ImportDeclaration
  nonImportFound : Bool
  fixable : Bool
deriving DecidableEq

/-- One step of the import-collecting reduce: an import found after a
non-import that itself followed an import clears fixable; a non-import
after at least one import sets nonImportFound. -/
def extractStep (st : ExtractState) : Statement → ExtractState
  | .importDeclaration d =>
    let st1 :=
      if !st.imports.isEmpty && st.nonImportFound then { st with fixable := false } else st
    { st1 with imports := st1.imports ++ [d] }
  | .otherStatement =>
    if !st.imports.isEmpty then { st with nonImportFound := true } else st

/-- The import-collecting reduce over the whole module body. -/
def extractImports (body : List Statement) : ExtractState :=
  body.foldl extractStep ⟨[], false, true⟩

/-- The specifier-order reduce of one declaration, carried out with the
isSorted flag: after the first violation the flag is false and every
later iteration is a no-op, so the reduce yields at most the first
misordered adjacent pair. -/
def specScan : ImportSpecifier → List ImportSpecifier → List ImportReport
  | _, [] => []
  | prev, cur :: rest =>
    if jsLtB (jsToLower (getImportSpecifierSortName cur))
        (jsToLower (getImportSpecifierSortName prev)) then
      [.specOrder (getImportSpecifierSortName cur) (getImportSpecifierSortName prev)]
    else specScan cur rest

/-- The per-declaration specifier check: skip side-effect imports, keep
only named specifiers, and pairwise-check them when there are at least
two. -/
def specifierViolations (node : ImportDeclaration) : List ImportReport :=
  if isImportSideEffect node then []
  else
    let sortableSpecifiers := node.specifiers.filter isNamedImportSpecifier
    if 2 ≤ sortableSpecifiers.length then
      match sortableSpecifiers with
      | [] => []
      | first :: rest => specScan first rest
    else []

/-- The state threaded through the pairwise declaration scan: emitted
reports, the lastUnsortedDeclaration flag, the declarations collected for
the narrower specifier fix, and the pending thrown error (a throw aborts
the traversal, so once set the state is frozen). -/
structure ScanState where
  reports : List ImportReport
  lastUnsorted : Bool
  unsortedSpecDecls : List ImportDeclaration
  error : Option JSString
deriving DecidableEq

/-- The message of the throw in the declaration comparison and in the
fixer's sort key. -/
def unexpectedSortStrategy : JSString := jstr "Unexpected sort strategy"

/-- One step of the pairwise declaration scan: the group comparison, then
(inside the same group) the name comparison of the configured sort mode
or the throw on an unsupported mode, then the specifier check of the
current declaration. -/
def scanStep (declarationSort : JSString) (resolves : JSString → Bool) (fixable : Bool)
    (st : ScanState) (prevImport curImport : ImportDeclaration) : ScanState :=
  if st.error.isSome then st
  else
    let curDeclarationSortIdx := getImportDeclarationSortIdx resolves curImport
    let prevDeclarationSortIdx := getImportDeclarationSortIdx resolves prevImport
    let st1 :=
      if curDeclarationSortIdx < prevDeclarationSortIdx then
        { st with
          reports := st.reports ++
            [.groupOrder (DECL_TYPE_NAMES.get? curDeclarationSortIdx)
              (DECL_TYPE_NAMES.get? prevDeclarationSortIdx)],
          lastUnsorted := true }
      else if curDeclarationSortIdx = prevDeclarationSortIdx then
        if declarationSort = jstr "import" then
          let curSortName := getImportDeclarationSortName curImport
          let prevSortName := getImportDeclarationSortName prevImport
          if jsLtB (jsToLower curSortName) (jsToLower prevSortName) then
            { st with
              reports := st.reports ++
                [.importOrder curSortName prevSortName
                  curImport.sourceValue prevImport.sourceValue],
              lastUnsorted := true }
          else st
        else if declarationSort = jstr "source" then
          if jsLtB (jsToLower curImport.sourceValue) (jsToLower prevImport.sourceValue) then
            { st with
              reports := st.reports ++
                [.sourceOrder curImport.sourceValue prevImport.sourceValue],
              lastUnsorted := true }
          else st
        else { st with error := some unexpectedSortStrategy }
      else st
    if st1.error.isSome then st1
    else
      let specVs := specifierViolations curImport
      if specVs.isEmpty then st1
      else
        { st1 with
          reports := st1.reports ++ specVs,
          lastUnsorted := true,
          unsortedSpecDecls := st1.unsortedSpecDecls ++ (if fixable then [curImport] else []) }

/-- The initial scan state. -/
def initialScanState : ScanState := ⟨[], false, [], none⟩

/-- The pairwise declaration reduce: the first import is the initial
accumulator, each later import is compared with its predecessor. -/
def scanImports (declarationSort : JSString) (resolves : JSString → Bool) (fixable : Bool) :
    List ImportDeclaration → ScanState
  | [] => initialScanState
  | first :: rest =>
    (rest.foldl (fun acc cur => (scanStep declarationSort resolves fixable acc.1 acc.2 cur, cur))
      (initialScanState, first)).1

/-- The narrower specifier fix of one declaration: its named specifiers
sorted by lower-cased sort name. -/
def sortedImportSpecifiers (node : ImportDeclaration) : List ImportSpecifier :=
  jsSortBy (fun s => SortKey.str (jsToLower (getImportSpecifierSortName s)))
    (node.specifiers.filter isNamedImportSpecifier)

/-- The composite sort key of the whole-declaration fixer: the group
ordinal coerced to a string and concatenated with the lower-cased
name key (import mode) or source key (source mode).  In any other mode
the key function throws; the handler models that throw before sorting,
so the remaining arm is never consulted. -/
def importDeclCompositeSortKey (declarationSort : JSString) (resolves : JSString → Bool)
    (node : ImportDeclaration) : SortKey :=
  if declarationSort = jstr "import" then
    .str (natCodeUnits (getImportDeclarationSortIdx resolves node) ++
      jsToLower (getImportDeclarationSortName node))
  else if declarationSort = jstr "source" then
    .str (natCodeUnits (getImportDeclarationSortIdx resolves node) ++
      jsToLower node.sourceValue)
  else .str []

/-- The whole-declaration fix: the collected imports sorted by the
composite key. -/
def sortedImportDeclarations (declarationSort : JSString) (resolves : JSString → Bool)
    (imports : List ImportDeclaration) : List ImportDeclaration :=
  jsSortBy (importDeclCompositeSortKey declarationSort resolves) imports

/-- The outcome of one Program traversal: the violation diagnostics, the
error of an uncaught throw (diagnostics already emitted are kept), and
the consolidated fix, which is either the narrower specifier fix (the
sorted named specifiers of each collected declaration) or the
whole-declaration reorder.  A present fix stands for the extra
consolidated report carrying it. -/
structure ProgramOutcome where
  reports : List ImportReport
  error : Option JSString
  declFix : Option (List ImportDeclaration)
  specFixes : Option (List (List ImportSpecifier))
deriving DecidableEq

/-- The outcome of a traversal that returned early or found nothing. -/
def emptyOutcome : ProgramOutcome := ⟨[], none, none, none⟩

/-- The Program handler of the sort-imports rule: early return on short
bodies, import collection, the pairwise scan, and the consolidated fix.
The whole-declaration fixer sorts at least two declarations, so with an
unsupported sort mode its key function is invoked and throws; that throw
is modelled as the error of the outcome. -/
def programHandler (declarationSort : JSString) (resolves : JSString → Bool) (fix : Bool)
    (body : List Statement) : ProgramOutcome :=
  if body.length < 2 then emptyOutcome
  else
    let ex := extractImports body
    if ex.imports.length < 2 then emptyOutcome
    else
      let st := scanImports declarationSort resolves ex.fixable ex.imports
      match st.error with
      | some e => { reports := st.reports, error := some e, declFix := none, specFixes := none }
      | none =>
        if st.lastUnsorted && fix && ex.fixable then
          if !st.unsortedSpecDecls.isEmpty then
            { reports := st.reports, error := none, declFix := none,
              specFixes := some (st.unsortedSpecDecls.map sortedImportSpecifiers) }
          else if declarationSort = jstr "import" || declarationSort = jstr "source" then
            { reports := st.reports, error := none,
              declFix := some (sortedImportDeclarations declarationSort resolves ex.imports),
              specFixes := none }
          else
            { reports := st.reports, error := some unexpectedSortStrategy,
              declFix := none, specFixes := none }
        else { reports := st.reports, error := none, declFix := none, specFixes := none }

/-! ## sort-pattern-keys -/

/-- A property of a destructuring pattern: an ordinary property with a
key expression, or a rest element (RestProperty, ExperimentalRestProperty
or RestElement). -/
inductive PatternProp where
  | property (key : Expression)
  | restElement

/-- isRestElement of the pattern rule. -/
def isRestElement : PatternProp → Bool
  | .restElement => true
  | .property _ => false

/-- The key access curProp.key: a rest element has no key (undefined). -/
def PatternProp.key : PatternProp → Option Expression
  | .property k => some k
  | .restElement => none

/-- A diagnostic of the pattern rule: a rest element out of last
position, or a key pair out of order. -/
inductive PatternReport where
  | restNotLast
  | keyOrder (a b : JSString)
deriving DecidableEq

/-- The pairwise reduce of the pattern rule.  A rest element as the
current property is skipped (but becomes the predecessor); a rest element
as the predecessor is reported as not last; otherwise the lower-cased
keys are compared.  This reduce has no early stop: every violation is
reported. -/
def objectPatternScan : PatternProp → List PatternProp → List PatternReport
  | _, [] => []
  | prevProp, curProp :: rest =>
    if isRestElement curProp then objectPatternScan curProp rest
    else
      let curName := getExpressionSortName curProp.key
      let prevName := getExpressionSortName prevProp.key
      if isRestElement prevProp then
        .restNotLast :: objectPatternScan curProp rest
      else if jsLtB (jsToLower curName) (jsToLower prevName) then
        .keyOrder curName prevName :: objectPatternScan curProp rest
      else objectPatternScan curProp rest

/-- The early-return guard of the pattern rule.  The source compares the
property array itself with 2 (node.properties < 2, not .length): via
ToPrimitive the empty array becomes the empty string, hence the number 0,
and 0 < 2 holds; a non-empty array of property objects becomes a string
that coerces to NaN, and NaN < 2 is false.  So the guard fires exactly on
the empty property list. -/
def objectPatternGuard (properties : List PatternProp) : Bool :=
  properties.isEmpty

/-- The pattern fix: all properties sorted, a rest element keyed with the
Infinity sentinel so that it stays last. -/
def sortedPatternProps (properties : List PatternProp) : List PatternProp :=
  jsSortBy
    (fun prop =>
      if isRestElement prop then .posInf
      else .str (jsToLower (getExpressionSortName prop.key)))
    properties

/-- The outcome of one ObjectPattern traversal: the diagnostics and, when
fixing, the target order of the consolidated fix. -/
structure PatternOutcome where
  reports : List PatternReport
  fixOrder : Option (List PatternProp)

/-- The message of the TypeError thrown by a no-initial-value reduce of
an empty array. -/
def reduceEmptyError : JSString :=
  jstr "Reduce of empty array with no initial value"

/-- The pairwise reduce of the pattern rule as invoked: with no initial
value, JavaScript Array.prototype.reduce throws a TypeError on an empty
array; on a non-empty array the first element is the initial accumulator
and the callback runs over the rest. -/
def patternPairwiseViolations : List PatternProp → Except JSString (List PatternReport)
  | [] => .error reduceEmptyError
  | first :: rest => .ok (objectPatternScan first rest)

/-- The ObjectPattern handler of the pattern rule: the coercing guard,
then the pairwise reduce, then the consolidated fix when a violation was
found and fixing is enabled. -/
def objectPatternRule (properties : List PatternProp) (fix : Bool) :
    Except JSString PatternOutcome :=
  if objectPatternGuard properties then .ok ⟨[], none⟩
  else
    match patternPairwiseViolations properties with
    | .error e => .error e
    | .ok reports =>
      .ok ⟨reports,
        if !reports.isEmpty && fix then some (sortedPatternProps properties) else none⟩

/-! ## sort-object-keys -/

/-- A property of an object literal: a spread (SpreadProperty or
ExperimentalSpreadProperty) with its argument, or an ordinary property
with a key expression. -/
inductive ObjProperty where
  | spreadProperty (argument : Expression)
  | property (key : Expression)

/-- Whether a property is a spread. -/
def isSpreadProperty : ObjProperty → Bool
  | .spreadProperty _ => true
  | .property _ => false

/-- The key access prop.key: a spread has no key (undefined). -/
def ObjProperty.key : ObjProperty → Option Expression
  | .property k => some k
  | .spreadProperty _ => none

/-- getDefinedPropSpansOfObjectExpression: the reduce dividing the
property list into contiguous runs of non-spread properties.  A spread
flushes the currently accumulated run (when non-empty); a non-spread
property extends it; at the last index the pending run, if non-empty, is
flushed as well. -/
def getDefinedPropSpansOfObjectExpression (properties : List ObjProperty) :
    List (List ObjProperty) :=
  let n := properties.length
  (properties.foldl
    (fun (acc : List (List ObjProperty) × List ObjProperty × Nat) prop =>
      let propSpans := acc.1
      let propSpan := acc.2.1
      let idx := acc.2.2
      let flushed :=
        if isSpreadProperty prop then
          if !propSpan.isEmpty then (propSpans ++ [propSpan], ([] : List ObjProperty))
          else (propSpans, [])
        else (propSpans, propSpan ++ [prop])
      let propSpans :=
        if !flushed.2.isEmpty && idx = n - 1 then flushed.1 ++ [flushed.2] else flushed.1
      (propSpans, flushed.2, idx + 1))
    ([], [], 0)).1

/-- The pairwise reduce within one span of the object-keys rule: every
adjacent pair of lower-cased keys out of order is reported. -/
def objSpanScan : ObjProperty → List ObjProperty → List (JSString × JSString)
  | _, [] => []
  | prevProp, curProp :: rest =>
    let curName := getExpressionSortName curProp.key
    let prevName := getExpressionSortName prevProp.key
    if jsLtB (jsToLower curName) (jsToLower prevName) then
      (curName, prevName) :: objSpanScan curProp rest
    else objSpanScan curProp rest

/-- The fix of one span: the span sorted by lower-cased key. -/
def sortedObjSpan (span : List ObjProperty) : List ObjProperty :=
  jsSortBy (fun prop => .str (jsToLower (getExpressionSortName prop.key))) span

/-- The per-span body of the forEach of the object-keys rule: spans with
fewer than two properties are skipped (none); otherwise the reports of
the pairwise reduce and, when a violation was found and fixing is
enabled, the fix reordering exactly that span. -/
def objectExpressionSpanOutcome (fix : Bool) (span : List ObjProperty) :
    Option (List (JSString × JSString) × Option (List ObjProperty)) :=
  if span.length < 2 then none
  else
    match span with
    | [] => none
    | first :: rest =>
      let reports := objSpanScan first rest
      some (reports, if !reports.isEmpty && fix then some (sortedObjSpan span) else none)

/-- The ObjectExpression handler of the object-keys rule: the length
guard, the span partition, and the per-span check and fix. -/
def objectExpressionRule (properties : List ObjProperty) (fix : Bool) :
    List (List (JSString × JSString) × Option (List ObjProperty)) :=
  if properties.length < 2 then []
  else (getDefinedPropSpansOfObjectExpression properties).filterMap
    (objectExpressionSpanOutcome fix)

/-! ## Concrete inputs and statement apparatus used by the claim theorems -/

/-- import Image from './x.png' (a static-asset import, group ordinal 4). -/
def declStaticAssetEx : ImportDeclaration :=
  ⟨[.importDefaultSpecifier (jstr "Image")], jstr "./x.png"⟩

/-- import A from './a' (an internal import, group ordinal 3). -/
def declInternalEx : ImportDeclaration :=
  ⟨[.importDefaultSpecifier (jstr "A")], jstr "./a"⟩

/-- import React, { zed } from 'react': a default specifier followed by a
named specifier. -/
def declDefaultAndNamedEx : ImportDeclaration :=
  ⟨[.importDefaultSpecifier (jstr "React"), .importSpecifier (jstr "zed") (jstr "zed")],
   jstr "react"⟩

/-- import { c, b, a } from 's': three pairwise-misordered named
specifiers. -/
def declThreeDescendingEx : ImportDeclaration :=
  ⟨[.importSpecifier (jstr "c") (jstr "c"), .importSpecifier (jstr "b") (jstr "b"),
    .importSpecifier (jstr "a") (jstr "a")], jstr "s"⟩

/-- import 'se' (a side-effect import, group ordinal 0). -/
def declSideEffectEx : ImportDeclaration := ⟨[], jstr "se"⟩

/-- import R from 'react' (an external import under the all-resolving
probe, group ordinal 1). -/
def declExternalEx : ImportDeclaration :=
  ⟨[.importDefaultSpecifier (jstr "R")], jstr "react"⟩

/-- The spanning range as the specification's rewrite contract describes
it: starting at the first node's first owned leading comment when one
exists, otherwise at the node itself, and ending at the last node's end.
This definition follows the spec's words, to be compared with the
source's getSpanningRange. -/
def claimedSpanningRange (leadingComments : SrcNode → List SrcNode) :
    List SrcNode → Option (Nat × Nat)
  | [] => none
  | n :: rest =>
    some ((match leadingComments n with
            | [] => n.rangeStart
            | c :: _ => c.rangeStart),
      ((n :: rest).getLast (List.cons_ne_nil n rest)).rangeEnd)

/-- A leading-comment assignment giving the first example node one owned
leading comment at range [0, 8). -/
def commentsEx (n : SrcNode) : List SrcNode :=
  if n = ⟨10, 20⟩ then [⟨0, 8⟩] else []

/-- Whether some adjacent pair of the list is out of case-insensitive
order (the disorder the specifier check looks for). -/
def anyMisorderedAdjacent : List ImportSpecifier → Bool
  | [] => false
  | [_] => false
  | a :: b :: rest =>
    jsLtB (jsToLower (getImportSpecifierSortName b))
        (jsToLower (getImportSpecifierSortName a)) ||
      anyMisorderedAdjacent (b :: rest)

/-- The object literal {...x, b, a, ...y, d, c}. -/
def objSpreadBarrierEx : List ObjProperty :=
  [.spreadProperty (.identifier (jstr "x")), .property (.identifier (jstr "b")),
   .property (.identifier (jstr "a")), .spreadProperty (.identifier (jstr "y")),
   .property (.identifier (jstr "d")), .property (.identifier (jstr "c"))]

/-- The destructuring pattern {b, a, ...rest}. -/
def patternRestEx : List PatternProp :=
  [.property (.identifier (jstr "b")), .property (.identifier (jstr "a")), .restElement]

/-- The name part of the composite sort key for a supported mode: the
lower-cased declaration name in import mode, the lower-cased source
otherwise. -/
def compositeNameKey (declarationSort : JSString) (node : ImportDeclaration) : JSString :=
  if declarationSort = jstr "import" then jsToLower (getImportDeclarationSortName node)
  else jsToLower node.sourceValue

/-- The composite key of the whole-declaration fixer as a plain string:
group ordinal digits concatenated with the name part. -/
def compositeKeyString (declarationSort : JSString) (resolves : JSString → Bool)
    (node : ImportDeclaration) : JSString :=
  natCodeUnits (getImportDeclarationSortIdx resolves node) ++
    compositeNameKey declarationSort node

/-- Whether some adjacent pair of declarations falls in the same group
(the current one's ordinal equal to the previous one's). -/
def anyAdjacentSameGroup (resolves : JSString → Bool) : List ImportDeclaration → Bool
  | [] => false
  | [_] => false
  | a :: b :: rest =>
    (getImportDeclarationSortIdx resolves b == getImportDeclarationSortIdx resolves a) ||
      anyAdjacentSameGroup resolves (b :: rest)

/-- A module of two correctly ordered imports in distinct groups: a
side-effect import followed by an external one. -/
def invalidModeBodyEx : List Statement :=
  [.importDeclaration declSideEffectEx, .importDeclaration declExternalEx]

/-- The projection of a statement to its import declaration. -/
def importOfStatement : Statement → Option ImportDeclaration
  | .importDeclaration d => some d
  | .otherStatement => none

/-- A module with a non-import statement interleaved between two import
declarations. -/
def interleavedBodyEx : List Statement :=
  [.importDeclaration declSideEffectEx, .otherStatement,
   .importDeclaration declExternalEx]

/-! ## Order lemmas for the string comparison -/

theorem jsLtB_cons_iff (x y : Nat) (xs ys : JSString) :
    jsLtB (x :: xs) (y :: ys) = true ↔ x < y ∨ (x = y ∧ jsLtB xs ys = true) := by
  simp only [jsLtB]
  rcases Nat.lt_trichotomy x y with h | h | h
  · simp [h]
  · subst h
    simp [Nat.lt_irrefl]
  · simp [Nat.lt_asymm h, h, Nat.ne_of_gt h]

theorem jsLtB_irrefl (s : JSString) : jsLtB s s = false := by
  induction s with
  | nil => rfl
  | cons a as ih => simp [jsLtB, ih]

theorem jsLtB_trans : ∀ {a b c : JSString},
    jsLtB a b = true → jsLtB b c = true → jsLtB a c = true
  | [], [], _, h1, _ => by simp [jsLtB] at h1
  | [], _ :: _, [], _, h2 => by simp [jsLtB] at h2
  | [], _ :: _, _ :: _, _, _ => by simp [jsLtB]
  | _ :: _, [], _, h1, _ => by simp [jsLtB] at h1
  | _ :: _, _ :: _, [], _, h2 => by simp [jsLtB] at h2
  | x :: xs, y :: ys, z :: zs, h1, h2 => by
    rw [jsLtB_cons_iff] at h1 h2 ⊢
    rcases h1 with h1 | ⟨h1e, h1r⟩
    · rcases h2 with h2 | ⟨h2e, _⟩
      · exact Or.inl (Nat.lt_trans h1 h2)
      · exact Or.inl (h2e ▸ h1)
    · rcases h2 with h2 | ⟨h2e, h2r⟩
      · exact Or.inl (h1e ▸ h2)
      · exact Or.inr ⟨h1e.trans h2e, jsLtB_trans h1r h2r⟩

theorem jsLtB_connex : ∀ {a b : JSString},
    jsLtB a b = false → jsLtB b a = false → a = b
  | [], [], _, _ => rfl
  | [], _ :: _, h1, _ => by simp [jsLtB] at h1
  | _ :: _, [], _, h2 => by simp [jsLtB] at h2
  | x :: xs, y :: ys, h1, h2 => by
    rw [Bool.eq_false_iff, Ne, jsLtB_cons_iff] at h1 h2
    have hxy : x = y := by
      by_contra hne
      rcases Nat.lt_or_ge x y with h | h
      · exact h1 (Or.inl h)
      · exact h2 (Or.inl (Nat.lt_of_le_of_ne h (fun he => hne he.symm)))
    subst hxy
    have hr : jsLtB xs ys = false := by
      by_contra hx
      exact h1 (Or.inr ⟨rfl, eq_true_of_ne_false hx⟩)
    have hr2 : jsLtB ys xs = false := by
      by_contra hx
      exact h2 (Or.inr ⟨rfl, eq_true_of_ne_false hx⟩)
    rw [jsLtB_connex hr hr2]

theorem jsLtB_asymm {a b : JSString} (h : jsLtB a b = true) : jsLtB b a = false := by
  by_contra hx
  have hba := eq_true_of_ne_false hx
  have := jsLtB_trans h hba
  rw [jsLtB_irrefl] at this
  exact Bool.false_ne_true this

/-- The comparator produced by getSorter from string keys is ≤ 0 exactly
when the keys are equal or strictly ordered. -/
theorem getSorter_str_le {α : Type} (g : α → JSString) (a b : α) :
    getSorter (fun x => SortKey.str (g x)) a b ≤ 0 ↔
      (g a = g b ∨ jsLtB (g a) (g b) = true) := by
  simp only [getSorter, sortKeyLt]
  by_cases he : g a = g b
  · simp [he]
  · have hne : SortKey.str (g a) ≠ SortKey.str (g b) := by
      simp [he]
    by_cases hlt : jsLtB (g a) (g b) = true
    · simp [hne, hlt, he]
    · simp [hne, hlt, he]

/-- Totality of the string-key comparator over all elements. -/
theorem getSorter_str_total {α : Type} (g : α → JSString) (a b : α) :
    getSorter (fun x => SortKey.str (g x)) a b ≤ 0 ∨
      getSorter (fun x => SortKey.str (g x)) b a ≤ 0 := by
  rw [getSorter_str_le, getSorter_str_le]
  rcases Bool.eq_false_or_eq_true (jsLtB (g a) (g b)) with h | h
  · exact Or.inl (Or.inr h)
  · rcases Bool.eq_false_or_eq_true (jsLtB (g b) (g a)) with h2 | h2
    · exact Or.inr (Or.inr h2)
    · exact Or.inl (Or.inl (jsLtB_connex h h2))

/-- Transitivity of the string-key comparator. -/
theorem getSorter_str_trans {α : Type} (g : α → JSString) (a b c : α)
    (h1 : getSorter (fun x => SortKey.str (g x)) a b ≤ 0)
    (h2 : getSorter (fun x => SortKey.str (g x)) b c ≤ 0) :
    getSorter (fun x => SortKey.str (g x)) a c ≤ 0 := by
  rw [getSorter_str_le] at h1 h2 ⊢
  rcases h1 with h1 | h1
  · rcases h2 with h2 | h2
    · exact Or.inl (h1.trans h2)
    · exact Or.inr (h1 ▸ h2)
  · rcases h2 with h2 | h2
    · exact Or.inr (h2 ▸ h1)
    · exact Or.inr (jsLtB_trans h1 h2)

/-- Sorting with string keys produces a pairwise key-nondecreasing list. -/
theorem jsSortBy_str_pairwise {α : Type} (g : α → JSString) (l : List α) :
    (jsSortBy (fun x => SortKey.str (g x)) l).Pairwise
      (fun a b => g a = g b ∨ jsLtB (g a) (g b) = true) := by
  haveI ht : IsTotal α (fun a b => getSorter (fun x => SortKey.str (g x)) a b ≤ 0) :=
    ⟨getSorter_str_total g⟩
  haveI htr : IsTrans α (fun a b => getSorter (fun x => SortKey.str (g x)) a b ≤ 0) :=
    ⟨getSorter_str_trans g⟩
  have h := List.sorted_insertionSort
    (fun a b => getSorter (fun x => SortKey.str (g x)) a b ≤ 0) l
  exact h.imp (fun hab => (getSorter_str_le g _ _).mp hab)

/-- Sorting permutes the input. -/
theorem jsSortBy_perm {α : Type} (f : α → SortKey) (l : List α) :
    (jsSortBy f l).Perm l :=
  List.perm_insertionSort _ l

/-! ## Claim C3 -/

/-- Claim C3 (code bug): the label table DECL_TYPE_NAMES is indexed with
group ordinals, but the ordinals are 0, 1, 3, 4 while the table has
entries 0..3 only.  Looking up the StaticAsset ordinal yields undefined,
and looking up the Internal ordinal yields the static-asset label; on the
failing input (an internal import after a static-asset import) the
group-violation diagnostic therefore names the wrong label and
undefined. -/
theorem C3_label_lookup_misaligned :
    DECL_TYPE_NAMES.get? DECL_PRIORITIES_StaticAsset = none ∧
    DECL_TYPE_NAMES.get? DECL_PRIORITIES_Internal = some (jstr "static asset") ∧
    jstr "static asset" ≠ jstr "internal" ∧
    getImportDeclarationSortIdx (fun _ => true) declStaticAssetEx = DECL_PRIORITIES_StaticAsset ∧
    getImportDeclarationSortIdx (fun _ => true) declInternalEx = DECL_PRIORITIES_Internal ∧
    (scanImports (jstr "source") (fun _ => true) true
        [declStaticAssetEx, declInternalEx]).reports =
      [.groupOrder (some (jstr "static asset")) none] := by
  refine ⟨rfl, rfl, by decide, rfl, rfl, rfl⟩

/-! ## Claim C1 -/

/-- Claim C1 (counterexample): a declaration with a default specifier and
a named specifier.  The named specifiers and their keys are exactly
[zed], yet the declaration's sort name is React, the default specifier's
local name, not the minimum named key zed. -/
theorem C1_counterexample :
    (declDefaultAndNamedEx.specifiers.filter isNamedImportSpecifier).map
        getImportSpecifierSortName = [jstr "zed"] ∧
    getImportDeclarationSortName declDefaultAndNamedEx = jstr "React" ∧
    jstr "React" ≠ jstr "zed" := by
  refine ⟨rfl, rfl, by decide⟩

/-- Greater-or-equal (the negation of the string comparison) is
transitive. -/
theorem jsLtB_ge_trans {a b c : JSString}
    (h1 : jsLtB a b = false) (h2 : jsLtB b c = false) : jsLtB a c = false := by
  by_contra hx
  have hac := eq_true_of_ne_false hx
  rcases Bool.eq_false_or_eq_true (jsLtB c b) with hcb | hcb
  · have hab := jsLtB_trans hac hcb
    rw [h1] at hab
    exact Bool.false_ne_true hab
  · have hbc := jsLtB_connex h2 hcb
    rw [hbc] at h1
    rw [h1] at hac
    exact Bool.false_ne_true hac

/-- The reduce of getImportDeclarationSortName, continued from an
accumulated candidate, yields either that candidate or one of the named
keys of the remaining specifiers, and the result is a case-insensitive
lower bound of the candidate and of all those named keys. -/
theorem minNamedSortNameFrom_min (specs : List ImportSpecifier) (sortName : JSString) :
    (minNamedSortNameFrom sortName specs = sortName ∨
      minNamedSortNameFrom sortName specs ∈
        (specs.filter isNamedImportSpecifier).map getImportSpecifierSortName) ∧
    jsLtB (jsToLower sortName) (jsToLower (minNamedSortNameFrom sortName specs)) = false ∧
    (∀ k ∈ (specs.filter isNamedImportSpecifier).map getImportSpecifierSortName,
      jsLtB (jsToLower k) (jsToLower (minNamedSortNameFrom sortName specs)) = false) := by
  induction specs generalizing sortName with
  | nil =>
    refine ⟨Or.inl rfl, ?_, ?_⟩
    · simp [minNamedSortNameFrom, jsLtB_irrefl]
    · intro k hk
      simp at hk
  | cons spec rest ih =>
    match spec with
    | .importDefaultSpecifier n =>
      simpa [minNamedSortNameFrom, List.filter_cons, isNamedImportSpecifier] using ih sortName
    | .importNamespaceSpecifier n =>
      simpa [minNamedSortNameFrom, List.filter_cons, isNamedImportSpecifier] using ih sortName
    | .importSpecifier imp loc =>
      simp only [minNamedSortNameFrom, getImportSpecifierSortName, List.filter_cons,
        isNamedImportSpecifier, if_pos, List.map_cons]
      by_cases hlt : jsLtB (jsToLower imp) (jsToLower sortName) = true
      · rw [if_pos hlt]
        rcases ih imp with ⟨ha, hb, hc⟩
        refine ⟨Or.inr ?_, ?_, ?_⟩
        · rcases ha with ha | ha
          · rw [ha]
            exact List.mem_cons_self _ _
          · exact List.mem_cons_of_mem _ ha
        · by_contra hx
          have hx2 := eq_true_of_ne_false hx
          have hcontra := jsLtB_trans hlt hx2
          rw [hb] at hcontra
          exact Bool.false_ne_true hcontra
        · intro k hk
          rcases List.mem_cons.mp hk with hk | hk
          · rw [hk]
            exact hb
          · exact hc k hk
      · rw [if_neg hlt]
        have hlt2 : jsLtB (jsToLower imp) (jsToLower sortName) = false :=
          Bool.eq_false_iff.mpr hlt
        rcases ih sortName with ⟨ha, hb, hc⟩
        refine ⟨?_, hb, ?_⟩
        · rcases ha with ha | ha
          · exact Or.inl ha
          · exact Or.inr (List.mem_cons_of_mem _ ha)
        · intro k hk
          rcases List.mem_cons.mp hk with hk | hk
          · rw [hk]
            exact jsLtB_ge_trans hlt2 hb
          · exact hc k hk

/-- Claim C1 (amended): in import sort mode the sort key of a
non-side-effect declaration is the first specifier's local name whenever
the first specifier is a default or namespace specifier, even when named
specifiers also exist; the minimum (case-insensitive) named key is used
only when the first specifier is itself a named specifier, in which case
the key is one of the named keys and a case-insensitive lower bound of
all of them. -/
theorem C1_amended (node : ImportDeclaration) :
    (∀ n rest, node.specifiers = .importDefaultSpecifier n :: rest →
      getImportDeclarationSortName node = n) ∧
    (∀ n rest, node.specifiers = .importNamespaceSpecifier n :: rest →
      getImportDeclarationSortName node = n) ∧
    (∀ imp loc rest, node.specifiers = .importSpecifier imp loc :: rest →
      getImportDeclarationSortName node ∈
        (node.specifiers.filter isNamedImportSpecifier).map getImportSpecifierSortName ∧
      (∀ k ∈ (node.specifiers.filter isNamedImportSpecifier).map getImportSpecifierSortName,
        jsLtB (jsToLower k) (jsToLower (getImportDeclarationSortName node)) = false)) := by
  refine ⟨?_, ?_, ?_⟩
  · intro n rest h
    unfold getImportDeclarationSortName
    rw [h]
  · intro n rest h
    unfold getImportDeclarationSortName
    rw [h]
  · intro imp loc rest h
    have hname : getImportDeclarationSortName node = minNamedSortNameFrom imp rest := by
      unfold getImportDeclarationSortName
      rw [h]
    rw [hname, h]
    simp only [List.filter_cons, isNamedImportSpecifier, if_pos, List.map_cons,
      getImportSpecifierSortName]
    rcases minNamedSortNameFrom_min rest imp with ⟨ha, hb, hc⟩
    constructor
    · rcases ha with ha | ha
      · rw [ha]
        exact List.mem_cons_self _ _
      · exact List.mem_cons_of_mem _ ha
    · intro k hk
      rcases List.mem_cons.mp hk with hk | hk
      · rw [hk]
        exact hb
      · exact hc k hk

/-- Witness for C1_amended at the concrete declaration import React,
{ zed } from 'react'. -/
theorem C1_amended_witness :
    getImportDeclarationSortName declDefaultAndNamedEx = jstr "React" :=
  (C1_amended declDefaultAndNamedEx).1 (jstr "React")
    [.importSpecifier (jstr "zed") (jstr "zed")] rfl

/-! ## Claim C4 -/

/-- Claim C4 (counterexample): two nodes at [10, 20) and [21, 30), the
first owning a leading comment at [0, 8).  getSpanningRange starts the
span at 10, the first node's own start, not at 0 as the claimed contract
requires. -/
theorem C4_counterexample :
    getSpanningRange [⟨10, 20⟩, ⟨21, 30⟩] = some (10, 30) ∧
    claimedSpanningRange commentsEx [⟨10, 20⟩, ⟨21, 30⟩] = some (0, 30) ∧
    getSpanningRange [⟨10, 20⟩, ⟨21, 30⟩] ≠
      claimedSpanningRange commentsEx [⟨10, 20⟩, ⟨21, 30⟩] := by
  refine ⟨rfl, by decide, by decide⟩

/-- Claim C4 (amended): the replaced span always runs from the first
node's own start to the last node's end, never from a leading comment;
it coincides with the spec's contract precisely in the case where the
first node owns no leading comments. -/
theorem C4_amended (nodes : List SrcNode) (h : nodes ≠ [])
    (leadingComments : SrcNode → List SrcNode) :
    getSpanningRange nodes =
      some ((nodes.head h).rangeStart, (nodes.getLast h).rangeEnd) ∧
    (leadingComments (nodes.head h) = [] →
      claimedSpanningRange leadingComments nodes = getSpanningRange nodes) := by
  match nodes with
  | [] => exact absurd rfl h
  | n :: rest =>
    refine ⟨rfl, ?_⟩
    intro hc
    rw [List.head_cons] at hc
    simp only [claimedSpanningRange, getSpanningRange, hc]

/-- Witness for C4_amended at two concrete nodes with no leading
comments. -/
theorem C4_amended_witness :
    getSpanningRange [(⟨10, 20⟩ : SrcNode), ⟨21, 30⟩] = some (10, 30) ∧
    claimedSpanningRange (fun _ => []) [(⟨10, 20⟩ : SrcNode), ⟨21, 30⟩] =
      getSpanningRange [(⟨10, 20⟩ : SrcNode), ⟨21, 30⟩] := by
  have h := C4_amended [⟨10, 20⟩, ⟨21, 30⟩] (by decide) (fun _ => [])
  exact ⟨h.1, h.2 rfl⟩

/-! ## Claim C7 -/

/-- The isSorted-guarded reduce yields at most one report, and yields
none exactly when no adjacent pair is misordered. -/
theorem specScan_props : ∀ (prev : ImportSpecifier) (rest : List ImportSpecifier),
    (specScan prev rest).length ≤ 1 ∧
    (specScan prev rest).isEmpty = !anyMisorderedAdjacent (prev :: rest)
  | _, [] => by simp [specScan, anyMisorderedAdjacent]
  | prev, cur :: rest => by
    rcases specScan_props cur rest with ⟨ih1, ih2⟩
    by_cases h : jsLtB (jsToLower (getImportSpecifierSortName cur))
        (jsToLower (getImportSpecifierSortName prev)) = true
    · simp [specScan, anyMisorderedAdjacent, h]
    · have h2 := Bool.eq_false_iff.mpr h
      simp [specScan, anyMisorderedAdjacent, h2, ih1, ih2]

/-- Claim C7 (counterexample): a declaration with named specifiers c, b,
a.  Both adjacent pairs are out of case-insensitive order, yet the
specifier check emits exactly one diagnostic, not one per disorder. -/
theorem C7_counterexample :
    jsLtB (jsToLower (jstr "b")) (jsToLower (jstr "c")) = true ∧
    jsLtB (jsToLower (jstr "a")) (jsToLower (jstr "b")) = true ∧
    (specifierViolations declThreeDescendingEx).length = 1 := by decide

/-- Claim C7 (amended): the specifier check of a declaration records at
most one diagnostic, and records one exactly when some adjacent pair of
its named specifiers is out of case-insensitive order: the isSorted flag
stops reporting after the first violation. -/
theorem C7_amended (node : ImportDeclaration) :
    (specifierViolations node).length ≤ 1 ∧
    (specifierViolations node).isEmpty =
      !anyMisorderedAdjacent (node.specifiers.filter isNamedImportSpecifier) := by
  unfold specifierViolations
  by_cases hse : isImportSideEffect node = true
  · have hnil : node.specifiers = [] := by
      unfold isImportSideEffect at hse
      exact List.isEmpty_iff.mp hse
    simp [hse, hnil, anyMisorderedAdjacent]
  · rw [if_neg hse]
    rcases hfil : node.specifiers.filter isNamedImportSpecifier with - | ⟨a, - | ⟨b, t⟩⟩
    · simp [anyMisorderedAdjacent]
    · simp [anyMisorderedAdjacent]
    · have h2 : 2 ≤ (a :: b :: t).length := by simp
      rw [if_pos h2]
      exact specScan_props a (b :: t)

/-! ## Claim C10 -/

/-- Claim C10: the pattern rule neither reports nor fixes nor throws on a
pattern with fewer than two properties.  The guard compares the property
array itself with 2, so it fires exactly on the empty list (where the
no-initial-value reduce would throw); a singleton passes the guard but
the reduce produces no report and hence no fix. -/
theorem C10_small_patterns (properties : List PatternProp) (fix : Bool)
    (h : properties.length < 2) :
    objectPatternRule properties fix = .ok ⟨[], none⟩ ∧
    patternPairwiseViolations [] = .error reduceEmptyError ∧
    objectPatternGuard [] = true ∧
    (∀ p, objectPatternGuard [p] = false) := by
  refine ⟨?_, rfl, rfl, fun p => rfl⟩
  match properties with
  | [] => rfl
  | [p] => rfl
  | p :: q :: rest =>
    simp only [List.length_cons] at h
    omega

/-- Witness for C10_small_patterns at a singleton pattern. -/
theorem C10_small_patterns_witness :
    objectPatternRule [PatternProp.restElement] true = .ok ⟨[], none⟩ :=
  (C10_small_patterns [PatternProp.restElement] true (by decide)).1

/-! ## Claim C5 -/

/-- Claim C5: on {...x, b, a, ...y, d, c} the spread properties partition
the list into the runs [b, a] and [d, c]; the rule reports exactly one
violation inside each run and fixes each run by sorting it in place,
yielding {...x, a, b, ...y, c, d}; and in general a run with fewer than
two properties is skipped outright. -/
theorem C5_spread_barrier :
    getDefinedPropSpansOfObjectExpression objSpreadBarrierEx =
      [[.property (.identifier (jstr "b")), .property (.identifier (jstr "a"))],
       [.property (.identifier (jstr "d")), .property (.identifier (jstr "c"))]] ∧
    objectExpressionRule objSpreadBarrierEx true =
      [([(jstr "a", jstr "b")],
        some [.property (.identifier (jstr "a")), .property (.identifier (jstr "b"))]),
       ([(jstr "c", jstr "d")],
        some [.property (.identifier (jstr "c")), .property (.identifier (jstr "d"))])] ∧
    (∀ (fix2 : Bool) (span : List ObjProperty), span.length < 2 →
      objectExpressionSpanOutcome fix2 span = none) := by
  refine ⟨rfl, rfl, ?_⟩
  intro fix2 span h
  unfold objectExpressionSpanOutcome
  rw [if_pos h]

/-- Witness for C5_spread_barrier at a singleton run. -/
theorem C5_spread_barrier_witness :
    objectExpressionSpanOutcome true [ObjProperty.property (.identifier (jstr "z"))] = none :=
  C5_spread_barrier.2.2 true [.property (.identifier (jstr "z"))] (by decide)

/-! ## Claim C6 -/

/-- A rest element that occurs only in last position is never reported:
the pairwise reduce emits no rest-not-last diagnostic when the
predecessor and every property except possibly the last are non-rest. -/
theorem objectPatternScan_no_restNotLast :
    ∀ (prev : PatternProp) (l : List PatternProp),
      isRestElement prev = false →
      (∀ p ∈ l.dropLast, isRestElement p = false) →
      PatternReport.restNotLast ∉ objectPatternScan prev l
  | _, [], _, _ => by simp [objectPatternScan]
  | prev, cur :: rest, h1, h2 => by
    by_cases hc : isRestElement cur = true
    · cases rest with
      | nil => simp [objectPatternScan, hc]
      | cons r rs =>
        exfalso
        have hmem : cur ∈ (cur :: r :: rs).dropLast := by
          simp [List.dropLast_cons₂]
        rw [h2 cur hmem] at hc
        exact Bool.false_ne_true hc
    · have hc2 : isRestElement cur = false := Bool.eq_false_iff.mpr hc
      have hrec : PatternReport.restNotLast ∉ objectPatternScan cur rest :=
        objectPatternScan_no_restNotLast cur rest hc2
          (fun p hp => h2 p (by
            cases rest with
            | nil => simp at hp
            | cons r rs =>
              rw [List.dropLast_cons₂]
              exact List.mem_cons_of_mem _ hp))
      by_cases hlt : jsLtB (jsToLower (getExpressionSortName cur.key))
          (jsToLower (getExpressionSortName prev.key)) = true
      · simp [objectPatternScan, hc2, h1, hlt, hrec]
      · have hlt2 := Bool.eq_false_iff.mpr hlt
        simp [objectPatternScan, hc2, h1, hlt2, hrec]

/-- A non-rest property somewhere after a rest element is always
reported: the pairwise reduce emits a rest-not-last diagnostic. -/
theorem objectPatternScan_rest_reported :
    ∀ (prev : PatternProp) (l1 : List PatternProp) (k : Expression) (l2 : List PatternProp),
      PatternReport.restNotLast ∈
        objectPatternScan prev (l1 ++ PatternProp.restElement :: PatternProp.property k :: l2)
  | _, [], k, l2 => by
    simp [objectPatternScan, isRestElement]
  | prev, c :: l1, k, l2 => by
    have ih := objectPatternScan_rest_reported c l1 k l2
    rw [List.cons_append]
    by_cases hc : isRestElement c = true
    · simp only [objectPatternScan, hc, if_pos]
      exact ih
    · have hc2 := Bool.eq_false_iff.mpr hc
      by_cases hp : isRestElement prev = true
      · simp [objectPatternScan, hc2, hp, ih]
      · have hp2 := Bool.eq_false_iff.mpr hp
        by_cases hlt : jsLtB (jsToLower (getExpressionSortName c.key))
            (jsToLower (getExpressionSortName prev.key)) = true
        · simp [objectPatternScan, hc2, hp2, hlt, ih]
        · have hlt2 := Bool.eq_false_iff.mpr hlt
          simp [objectPatternScan, hc2, hp2, hlt2, ih]

/-- Lifting of the previous fact to the checking phase of the rule. -/
theorem patternPairwiseViolations_rest_reported (l1 : List PatternProp) (k : Expression)
    (l2 : List PatternProp) (reports : List PatternReport)
    (h : patternPairwiseViolations
        (l1 ++ PatternProp.restElement :: PatternProp.property k :: l2) = .ok reports) :
    PatternReport.restNotLast ∈ reports := by
  cases l1 with
  | nil =>
    rw [List.nil_append] at h
    unfold patternPairwiseViolations at h
    injection h with h2
    rw [← h2]
    simp [objectPatternScan, isRestElement]
  | cons c l1 =>
    rw [List.cons_append] at h
    unfold patternPairwiseViolations at h
    injection h with h2
    rw [← h2]
    exact objectPatternScan_rest_reported c l1 k l2

/-- Claim C6: on {b, a, ...rest} the only violation is a reported before
b, and the fix yields {a, b, ...rest} with the rest element last and
unchanged; in general a rest element occurring only in last position is
never reported, while a non-rest property after a rest element always
produces a rest-not-last violation. -/
theorem C6_rest_pinning :
    objectPatternRule patternRestEx true =
      .ok ⟨[.keyOrder (jstr "a") (jstr "b")],
        some [.property (.identifier (jstr "a")), .property (.identifier (jstr "b")),
          .restElement]⟩ ∧
    (∀ (prev : PatternProp) (l : List PatternProp),
      isRestElement prev = false →
      (∀ p ∈ l.dropLast, isRestElement p = false) →
      PatternReport.restNotLast ∉ objectPatternScan prev l) ∧
    (∀ (l1 : List PatternProp) (k : Expression) (l2 : List PatternProp)
        (reports : List PatternReport),
      patternPairwiseViolations
          (l1 ++ PatternProp.restElement :: PatternProp.property k :: l2) = .ok reports →
      PatternReport.restNotLast ∈ reports) :=
  ⟨rfl, objectPatternScan_no_restNotLast, patternPairwiseViolations_rest_reported⟩

/-- Witness for C6_rest_pinning at concrete patterns: a rest in last
position of {b, a, ...rest} is not reported, and a rest before a
property is. -/
theorem C6_rest_pinning_witness :
    PatternReport.restNotLast ∉
      objectPatternScan (PatternProp.property (.identifier (jstr "b")))
        [PatternProp.property (.identifier (jstr "a")), PatternProp.restElement] ∧
    PatternReport.restNotLast ∈
      [PatternReport.restNotLast, PatternReport.keyOrder (jstr "a") (jstr "b")] := by
  constructor
  · refine C6_rest_pinning.2.1 _ _ rfl ?_
    intro p hp
    simp only [List.dropLast_cons₂, List.dropLast_single, List.mem_cons,
      List.not_mem_nil, or_false] at hp
    rw [hp]
    rfl
  · exact C6_rest_pinning.2.2 [] (.identifier (jstr "b"))
      [.property (.identifier (jstr "a"))] _ rfl

/-! ## Claim C2 -/

/-- Every group ordinal is one of 0, 1, 3, 4, hence a single decimal
digit. -/
theorem getImportDeclarationSortIdx_lt_ten (resolves : JSString → Bool)
    (node : ImportDeclaration) : getImportDeclarationSortIdx resolves node < 10 := by
  unfold getImportDeclarationSortIdx DECL_PRIORITIES_SideEffect DECL_PRIORITIES_StaticAsset
    DECL_PRIORITIES_External DECL_PRIORITIES_Internal
  dsimp only
  split
  · omega
  · split
    · omega
    · split <;> omega

/-- The decimal rendering of a single-digit number is the one digit. -/
theorem natCodeUnits_single (n : Nat) (h : n < 10) : natCodeUnits n = [48 + n] := by
  interval_cases n <;> rfl

/-- On a supported mode, the fixer's sort key is the composite key
string. -/
theorem importDeclCompositeSortKey_eq (ds : JSString)
    (hmode : ds = jstr "import" ∨ ds = jstr "source") (resolves : JSString → Bool) :
    importDeclCompositeSortKey ds resolves =
      fun node => SortKey.str (compositeKeyString ds resolves node) := by
  funext node
  rcases hmode with h | h <;> subst h
  · unfold importDeclCompositeSortKey compositeKeyString compositeNameKey
    rw [if_pos rfl, if_pos rfl]
  · unfold importDeclCompositeSortKey compositeKeyString compositeNameKey
    rw [if_neg (by decide), if_pos rfl, if_neg (by decide)]

/-- What composite-key order means for one adjacent pair: the groups are
nondecreasing, and inside one group the name parts are nondecreasing. -/
theorem composite_pair_facts (ds : JSString) (resolves : JSString → Bool)
    {prev cur : ImportDeclaration}
    (h : compositeKeyString ds resolves prev = compositeKeyString ds resolves cur ∨
      jsLtB (compositeKeyString ds resolves prev) (compositeKeyString ds resolves cur) = true) :
    ¬(getImportDeclarationSortIdx resolves cur < getImportDeclarationSortIdx resolves prev) ∧
    (getImportDeclarationSortIdx resolves cur = getImportDeclarationSortIdx resolves prev →
      jsLtB (compositeNameKey ds cur) (compositeNameKey ds prev) = false) := by
  unfold compositeKeyString at h
  rw [natCodeUnits_single _ (getImportDeclarationSortIdx_lt_ten resolves prev),
    natCodeUnits_single _ (getImportDeclarationSortIdx_lt_ten resolves cur),
    List.singleton_append, List.singleton_append] at h
  rcases h with h | h
  · injection h with h1 h2
    constructor
    · omega
    · intro _
      rw [h2, jsLtB_irrefl]
  · rw [jsLtB_cons_iff] at h
    rcases h with h | ⟨h1, h2⟩
    · exact ⟨by omega, fun he => by omega⟩
    · exact ⟨by omega, fun _ => jsLtB_asymm h2⟩

/-- Every report of the per-declaration specifier check is a
specifier-order report. -/
theorem specScan_all_spec : ∀ (prev : ImportSpecifier) (rest : List ImportSpecifier),
    ∀ r ∈ specScan prev rest, r.isSpecOrder = true
  | _, [] => by simp [specScan]
  | prev, cur :: rest => by
    by_cases h : jsLtB (jsToLower (getImportSpecifierSortName cur))
        (jsToLower (getImportSpecifierSortName prev)) = true
    · simp [specScan, h, ImportReport.isSpecOrder]
    · have h2 := Bool.eq_false_iff.mpr h
      simpa [specScan, h2] using specScan_all_spec cur rest

/-- Every report of specifierViolations is a specifier-order report. -/
theorem specifierViolations_all_spec (node : ImportDeclaration) :
    ∀ r ∈ specifierViolations node, r.isSpecOrder = true := by
  unfold specifierViolations
  split
  · simp
  · dsimp only
    split
    · split
      · simp
      · exact specScan_all_spec _ _
    · simp

/-- The composite name part in import mode. -/
theorem compositeNameKey_importMode (node : ImportDeclaration) :
    compositeNameKey (jstr "import") node = jsToLower (getImportDeclarationSortName node) := by
  unfold compositeNameKey
  rw [if_pos rfl]

/-- The composite name part in source mode. -/
theorem compositeNameKey_sourceMode (node : ImportDeclaration) :
    compositeNameKey (jstr "source") node = jsToLower node.sourceValue := by
  unfold compositeNameKey
  rw [if_neg (by decide)]

/-- One clean scan step: when the adjacent pair is in composite-key
order and the state carries no error and only specifier reports, the
step leaves the error unset and appends at most specifier reports. -/
theorem scanStep_preserves (ds : JSString)
    (hmode : ds = jstr "import" ∨ ds = jstr "source")
    (resolves : JSString → Bool) (fixable : Bool) (st : ScanState)
    (prev cur : ImportDeclaration)
    (hpair : compositeKeyString ds resolves prev = compositeKeyString ds resolves cur ∨
      jsLtB (compositeKeyString ds resolves prev)
        (compositeKeyString ds resolves cur) = true)
    (herr : st.error = none) (hrep : ∀ r ∈ st.reports, r.isSpecOrder = true) :
    (scanStep ds resolves fixable st prev cur).error = none ∧
    (∀ r ∈ (scanStep ds resolves fixable st prev cur).reports, r.isSpecOrder = true) := by
  rcases composite_pair_facts ds resolves hpair with ⟨hgroup, hname⟩
  have hstate : (scanStep ds resolves fixable st prev cur).error = none ∧
      ((scanStep ds resolves fixable st prev cur).reports = st.reports ∨
       (scanStep ds resolves fixable st prev cur).reports =
         st.reports ++ specifierViolations cur) := by
    have hsi : ¬(jstr "source" = jstr "import") := by decide
    rcases hmode with hm | hm <;> subst hm <;>
      by_cases heq : getImportDeclarationSortIdx resolves cur =
        getImportDeclarationSortIdx resolves prev <;>
      by_cases hv : (specifierViolations cur).isEmpty = true
    · have hn := hname heq
      rw [compositeNameKey_importMode, compositeNameKey_importMode] at hn
      simp [scanStep, herr, hgroup, heq, hn, hv]
    · have hn := hname heq
      rw [compositeNameKey_importMode, compositeNameKey_importMode] at hn
      simp [scanStep, herr, hgroup, heq, hn, hv]
    · simp [scanStep, herr, hgroup, heq, hv]
    · simp [scanStep, herr, hgroup, heq, hv]
    · have hn := hname heq
      rw [compositeNameKey_sourceMode, compositeNameKey_sourceMode] at hn
      simp [scanStep, herr, hgroup, heq, hn, hv, hsi]
    · have hn := hname heq
      rw [compositeNameKey_sourceMode, compositeNameKey_sourceMode] at hn
      simp [scanStep, herr, hgroup, heq, hn, hv, hsi]
    · simp [scanStep, herr, hgroup, heq, hv, hsi]
    · simp [scanStep, herr, hgroup, heq, hv, hsi]
  rcases hstate with ⟨he, hr | hr⟩
  · refine ⟨he, ?_⟩
    rw [hr]
    exact hrep
  · refine ⟨he, ?_⟩
    rw [hr]
    intro r hmem
    rcases List.mem_append.mp hmem with hm2 | hm2
    · exact hrep r hm2
    · exact specifierViolations_all_spec cur r hm2

/-- The pairwise declaration scan of a composite-key-sorted sequence
stays clean: no error, only specifier reports. -/
theorem scanFold_clean (ds : JSString)
    (hmode : ds = jstr "import" ∨ ds = jstr "source")
    (resolves : JSString → Bool) (fixable : Bool) :
    ∀ (rest : List ImportDeclaration) (prev : ImportDeclaration) (st : ScanState),
      st.error = none → (∀ r ∈ st.reports, r.isSpecOrder = true) →
      (prev :: rest).Pairwise (fun a b =>
        compositeKeyString ds resolves a = compositeKeyString ds resolves b ∨
        jsLtB (compositeKeyString ds resolves a)
          (compositeKeyString ds resolves b) = true) →
      ((rest.foldl (fun acc cur => (scanStep ds resolves fixable acc.1 acc.2 cur, cur))
        (st, prev)).1.error = none ∧
       ∀ r ∈ (rest.foldl (fun acc cur => (scanStep ds resolves fixable acc.1 acc.2 cur, cur))
        (st, prev)).1.reports, r.isSpecOrder = true)
  | [], _, _, herr, hrep, _ => ⟨herr, hrep⟩
  | cur :: rest, prev, st, herr, hrep, hpw => by
    rw [List.foldl_cons]
    rcases List.pairwise_cons.mp hpw with ⟨hhead, htail⟩
    have hpair := hhead cur (List.mem_cons_self cur rest)
    rcases scanStep_preserves ds hmode resolves fixable st prev cur hpair herr hrep with
      ⟨he, hr⟩
    exact scanFold_clean ds hmode resolves fixable rest cur
      (scanStep ds resolves fixable st prev cur) he hr htail

/-- Claim C2: after the consolidated whole-declaration fix (sorting by
the composite group-then-name key), re-running the pairwise
group-then-name check reports no declaration-order violation and hits no
throw: the error is unset and every remaining report is a
specifier-order report, in both supported modes. -/
theorem C2_fix_then_check_clean (ds : JSString)
    (hmode : ds = jstr "import" ∨ ds = jstr "source")
    (resolves : JSString → Bool) (fixable : Bool) (imports : List ImportDeclaration) :
    (scanImports ds resolves fixable
      (sortedImportDeclarations ds resolves imports)).error = none ∧
    ∀ r ∈ (scanImports ds resolves fixable
      (sortedImportDeclarations ds resolves imports)).reports, r.isSpecOrder = true := by
  have hpw : (sortedImportDeclarations ds resolves imports).Pairwise (fun a b =>
      compositeKeyString ds resolves a = compositeKeyString ds resolves b ∨
      jsLtB (compositeKeyString ds resolves a)
        (compositeKeyString ds resolves b) = true) := by
    unfold sortedImportDeclarations
    rw [importDeclCompositeSortKey_eq ds hmode resolves]
    exact jsSortBy_str_pairwise (compositeKeyString ds resolves) imports
  revert hpw
  generalize sortedImportDeclarations ds resolves imports = l
  intro hpw
  match l with
  | [] =>
    refine ⟨rfl, ?_⟩
    simp [scanImports, initialScanState]
  | first :: rest =>
    simp only [scanImports]
    exact scanFold_clean ds hmode resolves fixable rest first initialScanState rfl
      (by simp [initialScanState]) hpw

/-- Witness for C2_fix_then_check_clean at a concrete module of three
declarations from all of the internal, external and side-effect
groups. -/
theorem C2_fix_then_check_clean_witness :
    (scanImports (jstr "import") (fun _ => true) true
      (sortedImportDeclarations (jstr "import") (fun _ => true)
        [declInternalEx, declExternalEx, declSideEffectEx])).error = none ∧
    ∀ r ∈ (scanImports (jstr "import") (fun _ => true) true
      (sortedImportDeclarations (jstr "import") (fun _ => true)
        [declInternalEx, declExternalEx, declSideEffectEx])).reports,
      r.isSpecOrder = true :=
  C2_fix_then_check_clean (jstr "import") (Or.inl rfl) (fun _ => true) true
    [declInternalEx, declExternalEx, declSideEffectEx]

/-! ## Claim C8 -/

/-- With an unsupported mode, one scan step sets the error exactly when
the pair falls in the same group (the group-violation and
group-ascending branches never reach the mode dispatch). -/
theorem scanStep_invalid_error (ds : JSString) (resolves : JSString → Bool)
    (fixable : Bool) (st : ScanState) (prev cur : ImportDeclaration)
    (h1 : ¬ ds = jstr "import") (h2 : ¬ ds = jstr "source") :
    (scanStep ds resolves fixable st prev cur).error.isSome =
      (st.error.isSome ||
        (getImportDeclarationSortIdx resolves cur ==
          getImportDeclarationSortIdx resolves prev)) := by
  by_cases herr : st.error.isSome = true
  · simp [scanStep, herr]
  · have hnone : st.error = none := Option.not_isSome_iff_eq_none.mp herr
    by_cases hlt : getImportDeclarationSortIdx resolves cur <
        getImportDeclarationSortIdx resolves prev
    · have hne : (getImportDeclarationSortIdx resolves cur ==
          getImportDeclarationSortIdx resolves prev) = false := by
        simp
        omega
      simp [scanStep, hnone, hlt, hne, apply_ite, ite_self]
    · by_cases heq : getImportDeclarationSortIdx resolves cur =
          getImportDeclarationSortIdx resolves prev
      · simp [scanStep, hnone, hlt, heq, h1, h2]
      · have hne : (getImportDeclarationSortIdx resolves cur ==
            getImportDeclarationSortIdx resolves prev) = false := by
          simp [heq]
        simp [scanStep, hnone, hlt, heq, hne, apply_ite, ite_self]

/-- Under an unsupported mode the folded scan errors exactly when some
adjacent pair of the scanned sequence shares a group. -/
theorem scanFold_invalid_error (ds : JSString) (resolves : JSString → Bool)
    (fixable : Bool) (h1 : ¬ ds = jstr "import") (h2 : ¬ ds = jstr "source") :
    ∀ (rest : List ImportDeclaration) (prev : ImportDeclaration) (st : ScanState),
      ((rest.foldl (fun acc cur => (scanStep ds resolves fixable acc.1 acc.2 cur, cur))
        (st, prev)).1.error.isSome =
        (st.error.isSome || anyAdjacentSameGroup resolves (prev :: rest)))
  | [], _, st => by simp [anyAdjacentSameGroup]
  | cur :: rest, prev, st => by
    rw [List.foldl_cons]
    rw [scanFold_invalid_error ds resolves fixable h1 h2 rest cur _]
    rw [scanStep_invalid_error ds resolves fixable st prev cur h1 h2]
    simp [anyAdjacentSameGroup, Bool.or_assoc]

/-- Under an unsupported mode the whole scan errors exactly when some
adjacent pair of imports shares a group. -/
theorem scanImports_invalid_error (ds : JSString) (resolves : JSString → Bool)
    (fixable : Bool) (h1 : ¬ ds = jstr "import") (h2 : ¬ ds = jstr "source")
    (l : List ImportDeclaration) :
    (scanImports ds resolves fixable l).error.isSome =
      anyAdjacentSameGroup resolves l := by
  match l with
  | [] => rfl
  | first :: rest =>
    simp only [scanImports]
    rw [scanFold_invalid_error ds resolves fixable h1 h2 rest first initialScanState]
    simp [initialScanState]

/-- Claim C8 (counterexample): with the unsupported mode 'bogus' on a
module of two imports in distinct groups, the traversal completes with
no error and no report instead of aborting. -/
theorem C8_counterexample :
    jstr "bogus" ≠ jstr "import" ∧
    jstr "bogus" ≠ jstr "source" ∧
    2 ≤ (extractImports invalidModeBodyEx).imports.length ∧
    (programHandler (jstr "bogus") (fun _ => true) false invalidModeBodyEx).error = none ∧
    (programHandler (jstr "bogus") (fun _ => true) false invalidModeBodyEx).reports = [] := by
  refine ⟨by decide, by decide, ?_, ?_, ?_⟩ <;> rfl

/-- Claim C8 (amended): with an unsupported declarationSort value and
fixing disabled, the traversal aborts with the explicit error exactly
when some adjacent pair of the collected import declarations falls in
the same group; otherwise it completes, reporting any violations it
found. -/
theorem C8_amended (ds : JSString) (resolves : JSString → Bool) (body : List Statement)
    (h1 : ds ≠ jstr "import") (h2 : ds ≠ jstr "source") :
    (programHandler ds resolves false body).error.isSome =
      anyAdjacentSameGroup resolves (extractImports body).imports := by
  unfold programHandler
  by_cases hlen : body.length < 2
  · rw [if_pos hlen]
    have hshort : anyAdjacentSameGroup resolves (extractImports body).imports = false := by
      match body, hlen with
      | [], _ => rfl
      | [s], _ => cases s <;> rfl
      | s :: t :: r, h =>
        simp only [List.length_cons] at h
        omega
    rw [hshort]
    rfl
  · rw [if_neg hlen]
    dsimp only
    by_cases himp : (extractImports body).imports.length < 2
    · rw [if_pos himp]
      have hshort : anyAdjacentSameGroup resolves (extractImports body).imports = false := by
        rcases hl : (extractImports body).imports with - | ⟨a, - | ⟨b, t⟩⟩
        · rfl
        · rfl
        · rw [hl] at himp
          simp only [List.length_cons] at himp
          omega
      rw [hshort]
      rfl
    · rw [if_neg himp]
      have hscan := scanImports_invalid_error ds resolves (extractImports body).fixable
        h1 h2 (extractImports body).imports
      rcases herr : (scanImports ds resolves (extractImports body).fixable
          (extractImports body).imports).error with - | e
      · rw [herr] at hscan
        simp only [Option.isSome_none] at hscan
        simp [herr, ← hscan]
      · rw [herr] at hscan
        simp only [Option.isSome_some] at hscan
        simp [herr, ← hscan]

/-- Witness for C8_amended at the mode 'bogus' and the two-import
module. -/
theorem C8_amended_witness :
    (programHandler (jstr "bogus") (fun _ => true) false invalidModeBodyEx).error.isSome =
      anyAdjacentSameGroup (fun _ => true) (extractImports invalidModeBodyEx).imports :=
  C8_amended (jstr "bogus") (fun _ => true) invalidModeBodyEx (by decide) (by decide)

/-! ## Claim C9 -/

/-- The reports, lastUnsorted flag and error of one scan step do not
depend on the fixable flag nor on the collected specifier-fix
declarations (only the unsortedSpecDecls field does). -/
theorem scanStep_fixable_view (ds : JSString) (resolves : JSString → Bool)
    (f1 f2 : Bool) (r : List ImportReport) (l : Bool)
    (d1 d2 : List ImportDeclaration) (e : Option JSString)
    (prev cur : ImportDeclaration) :
    (scanStep ds resolves f1 ⟨r, l, d1, e⟩ prev cur).reports =
      (scanStep ds resolves f2 ⟨r, l, d2, e⟩ prev cur).reports ∧
    (scanStep ds resolves f1 ⟨r, l, d1, e⟩ prev cur).lastUnsorted =
      (scanStep ds resolves f2 ⟨r, l, d2, e⟩ prev cur).lastUnsorted ∧
    (scanStep ds resolves f1 ⟨r, l, d1, e⟩ prev cur).error =
      (scanStep ds resolves f2 ⟨r, l, d2, e⟩ prev cur).error := by
  by_cases he : e.isSome = true
  · simp [scanStep, he]
  · have he2 : e = none := Option.not_isSome_iff_eq_none.mp he
    subst he2
    by_cases hlt : getImportDeclarationSortIdx resolves cur <
        getImportDeclarationSortIdx resolves prev
    · by_cases hv : (specifierViolations cur).isEmpty = true <;>
        simp [scanStep, hlt, hv]
    · by_cases heq : getImportDeclarationSortIdx resolves cur =
          getImportDeclarationSortIdx resolves prev
      · by_cases hm1 : ds = jstr "import"
        · subst hm1
          by_cases hnl : jsLtB (jsToLower (getImportDeclarationSortName cur))
              (jsToLower (getImportDeclarationSortName prev)) = true <;>
            by_cases hv : (specifierViolations cur).isEmpty = true <;>
            simp [scanStep, hlt, heq, hnl, hv]
        · by_cases hm2 : ds = jstr "source"
          · subst hm2
            by_cases hnl : jsLtB (jsToLower cur.sourceValue)
                (jsToLower prev.sourceValue) = true <;>
              by_cases hv : (specifierViolations cur).isEmpty = true <;>
              simp [scanStep, hlt, heq, hm1, hnl, hv]
          · simp [scanStep, hlt, heq, hm1, hm2]
      · by_cases hv : (specifierViolations cur).isEmpty = true <;>
          simp [scanStep, hlt, heq, hv]

/-- Lifting of the previous fact through the pairwise fold. -/
theorem scanFold_fixable_view (ds : JSString) (resolves : JSString → Bool)
    (f1 f2 : Bool) :
    ∀ (rest : List ImportDeclaration) (prev : ImportDeclaration)
      (st1 st2 : ScanState),
      st1.reports = st2.reports → st1.lastUnsorted = st2.lastUnsorted →
      st1.error = st2.error →
      ((rest.foldl (fun acc cur => (scanStep ds resolves f1 acc.1 acc.2 cur, cur))
          (st1, prev)).1.reports =
        (rest.foldl (fun acc cur => (scanStep ds resolves f2 acc.1 acc.2 cur, cur))
          (st2, prev)).1.reports ∧
       (rest.foldl (fun acc cur => (scanStep ds resolves f1 acc.1 acc.2 cur, cur))
          (st1, prev)).1.lastUnsorted =
        (rest.foldl (fun acc cur => (scanStep ds resolves f2 acc.1 acc.2 cur, cur))
          (st2, prev)).1.lastUnsorted ∧
       (rest.foldl (fun acc cur => (scanStep ds resolves f1 acc.1 acc.2 cur, cur))
          (st1, prev)).1.error =
        (rest.foldl (fun acc cur => (scanStep ds resolves f2 acc.1 acc.2 cur, cur))
          (st2, prev)).1.error)
  | [], _, _, _, hr, hl, he => ⟨hr, hl, he⟩
  | cur :: rest, prev, st1, st2, hr, hl, he => by
    obtain ⟨r1, l1, d1, e1⟩ := st1
    obtain ⟨r2, l2, d2, e2⟩ := st2
    simp only at hr hl he
    subst hr
    subst hl
    subst he
    rw [List.foldl_cons, List.foldl_cons]
    rcases scanStep_fixable_view ds resolves f1 f2 r1 l1 d1 d2 e1 prev cur with ⟨ha, hb, hc⟩
    exact scanFold_fixable_view ds resolves f1 f2 rest cur _ _ ha hb hc

/-- The scan's reports, lastUnsorted flag and error do not depend on the
fixable flag. -/
theorem scanImports_fixable_view (ds : JSString) (resolves : JSString → Bool)
    (f1 f2 : Bool) (l : List ImportDeclaration) :
    (scanImports ds resolves f1 l).reports = (scanImports ds resolves f2 l).reports ∧
    (scanImports ds resolves f1 l).lastUnsorted =
      (scanImports ds resolves f2 l).lastUnsorted ∧
    (scanImports ds resolves f1 l).error = (scanImports ds resolves f2 l).error := by
  match l with
  | [] => exact ⟨rfl, rfl, rfl⟩
  | first :: rest =>
    simp only [scanImports]
    exact scanFold_fixable_view ds resolves f1 f2 rest first initialScanState
      initialScanState rfl rfl rfl

/-- Collecting an import appends it to the accumulator, whatever the
flags do. -/
theorem extractStep_import_imports (st : ExtractState) (d : ImportDeclaration) :
    (extractStep st (.importDeclaration d)).imports = st.imports ++ [d] := by
  simp only [extractStep]
  split <;> rfl

/-- A non-import statement leaves the collected imports unchanged. -/
theorem extractStep_other_imports (st : ExtractState) :
    (extractStep st .otherStatement).imports = st.imports := by
  simp only [extractStep]
  split <;> rfl

/-- The collected imports are exactly the import declarations of the
body, in order. -/
theorem extractFold_imports : ∀ (body : List Statement) (st : ExtractState),
    (body.foldl extractStep st).imports = st.imports ++ body.filterMap importOfStatement
  | [], st => by simp
  | s :: rest, st => by
    rw [List.foldl_cons, extractFold_imports rest]
    cases s with
    | importDeclaration d =>
      rw [extractStep_import_imports]
      simp [List.filterMap_cons, importOfStatement]
    | otherStatement =>
      rw [extractStep_other_imports]
      simp [List.filterMap_cons, importOfStatement]

/-- extractImports collects exactly the import declarations. -/
theorem extractImports_imports (body : List Statement) :
    (extractImports body).imports = body.filterMap importOfStatement := by
  unfold extractImports
  rw [extractFold_imports body]
  rfl

/-- Filtering to import statements first does not change which import
declarations are collected. -/
theorem filterMap_filter_imports (body : List Statement) :
    (body.filter isImportStatement).filterMap importOfStatement =
      body.filterMap importOfStatement := by
  induction body with
  | nil => rfl
  | cons s rest ih =>
    cases s <;> simp [List.filter_cons, isImportStatement, List.filterMap_cons,
      importOfStatement, ih]

/-- One extraction step preserves non-emptiness of the collected imports
and the nonImportFound flag once set. -/
theorem extractStep_preserves_found (st : ExtractState) (s : Statement)
    (h1 : st.imports ≠ []) (h2 : st.nonImportFound = true) :
    (extractStep st s).imports ≠ [] ∧ (extractStep st s).nonImportFound = true := by
  cases s with
  | importDeclaration d =>
    constructor
    · rw [extractStep_import_imports]
      simp
    · simp only [extractStep]
      split <;> exact h2
  | otherStatement =>
    simp only [extractStep]
    split <;> exact ⟨h1, by simp [h2]⟩

/-- Folded version of the preservation of the found state. -/
theorem extractFold_preserves_found : ∀ (body : List Statement) (st : ExtractState),
    st.imports ≠ [] → st.nonImportFound = true →
    ((body.foldl extractStep st).imports ≠ [] ∧
     (body.foldl extractStep st).nonImportFound = true)
  | [], _, h1, h2 => ⟨h1, h2⟩
  | s :: rest, st, h1, h2 => by
    rw [List.foldl_cons]
    rcases extractStep_preserves_found st s h1 h2 with ⟨a, b⟩
    exact extractFold_preserves_found rest _ a b

/-- One extraction step keeps the collected imports non-empty. -/
theorem extractStep_imports_mono (st : ExtractState) (s : Statement)
    (h : st.imports ≠ []) : (extractStep st s).imports ≠ [] := by
  cases s with
  | importDeclaration d =>
    rw [extractStep_import_imports]
    simp
  | otherStatement =>
    rw [extractStep_other_imports]
    exact h

/-- Folded version: the collected imports stay non-empty. -/
theorem extractFold_imports_mono : ∀ (body : List Statement) (st : ExtractState),
    st.imports ≠ [] → (body.foldl extractStep st).imports ≠ []
  | [], _, h => h
  | s :: rest, st, h => by
    rw [List.foldl_cons]
    exact extractFold_imports_mono rest _ (extractStep_imports_mono st s h)

/-- One extraction step keeps a cleared fixable flag cleared. -/
theorem extractStep_fixable_mono (st : ExtractState) (s : Statement)
    (h : st.fixable = false) : (extractStep st s).fixable = false := by
  cases s with
  | importDeclaration d =>
    simp only [extractStep]
    split <;> simp [h]
  | otherStatement =>
    simp only [extractStep]
    split <;> exact h

/-- Folded version: a cleared fixable flag stays cleared. -/
theorem extractFold_fixable_mono : ∀ (body : List Statement) (st : ExtractState),
    st.fixable = false → (body.foldl extractStep st).fixable = false
  | [], _, h => h
  | s :: rest, st, h => by
    rw [List.foldl_cons]
    exact extractFold_fixable_mono rest _ (extractStep_fixable_mono st s h)

/-- A non-import statement seen after at least one import sets the
nonImportFound flag. -/
theorem extractStep_other_found (st : ExtractState) (h : st.imports ≠ []) :
    (extractStep st .otherStatement).nonImportFound = true := by
  simp only [extractStep]
  rw [if_pos]
  cases hst : st.imports with
  | nil => exact absurd hst h
  | cons x xs2 => rfl

/-- An import collected while the nonImportFound flag is set clears the
fixable flag. -/
theorem extractStep_import_fixable_false (st : ExtractState) (d : ImportDeclaration)
    (h1 : st.imports ≠ []) (h2 : st.nonImportFound = true) :
    (extractStep st (.importDeclaration d)).fixable = false := by
  simp only [extractStep]
  rw [if_pos]
  cases hst : st.imports with
  | nil => exact absurd hst h1
  | cons x xs2 => rw [h2]; rfl

/-- A non-import statement between two import declarations clears the
fixable flag for the whole extraction. -/
theorem extractImports_interleaved_fixable (xs ys zs ws : List Statement)
    (a b : ImportDeclaration) :
    (extractImports (xs ++ .importDeclaration a :: ys ++ .otherStatement :: zs ++
      .importDeclaration b :: ws)).fixable = false := by
  unfold extractImports
  rw [List.foldl_append, List.foldl_cons, List.foldl_append, List.foldl_cons,
    List.foldl_append, List.foldl_cons]
  apply extractFold_fixable_mono
  have h1 : (extractStep (List.foldl extractStep ⟨[], false, true⟩ xs)
      (.importDeclaration a)).imports ≠ [] := by
    rw [extractStep_import_imports]
    simp
  have h2 := extractFold_imports_mono ys _ h1
  have h3i := extractStep_imports_mono _ Statement.otherStatement h2
  have h3f := extractStep_other_found _ h2
  rcases extractFold_preserves_found zs _ h3i h3f with ⟨h4, h5⟩
  exact extractStep_import_fixable_false _ b h4 h5

/-- With a cleared fixable flag, the handler offers neither the
whole-declaration fix nor the narrower specifier fix. -/
theorem programHandler_no_fix (ds : JSString) (resolves : JSString → Bool)
    (fix : Bool) (body : List Statement)
    (hfix : (extractImports body).fixable = false) :
    (programHandler ds resolves fix body).declFix = none ∧
    (programHandler ds resolves fix body).specFixes = none := by
  unfold programHandler
  by_cases hlen : body.length < 2
  · rw [if_pos hlen]
    exact ⟨rfl, rfl⟩
  · rw [if_neg hlen]
    dsimp only
    by_cases himp : (extractImports body).imports.length < 2
    · rw [if_pos himp]
      exact ⟨rfl, rfl⟩
    · rw [if_neg himp]
      rcases herr : (scanImports ds resolves (extractImports body).fixable
          (extractImports body).imports).error with - | e
      · simp [herr, hfix]
      · simp [herr]

/-- Past the guards, the handler's violation reports are exactly the
scan's reports, whatever fix branch is taken. -/
theorem programHandler_reports (ds : JSString) (resolves : JSString → Bool)
    (fix : Bool) (body : List Statement)
    (hlen : ¬ body.length < 2)
    (himp : ¬ (extractImports body).imports.length < 2) :
    (programHandler ds resolves fix body).reports =
      (scanImports ds resolves (extractImports body).fixable
        (extractImports body).imports).reports := by
  unfold programHandler
  rw [if_neg hlen]
  dsimp only
  rw [if_neg himp]
  rcases herr : (scanImports ds resolves (extractImports body).fixable
      (extractImports body).imports).error with - | e
  · simp only [herr]
    split_ifs <;> rfl
  · simp [herr]

/-- Claim C9: with a non-import statement interleaved between two import
declarations, the traversal offers no fix of any kind, while the
violation diagnostics are exactly those of the same import declarations
without interleaving. -/
theorem C9_interleaved (ds : JSString) (resolves : JSString → Bool) (fix : Bool)
    (body : List Statement) (xs ys zs ws : List Statement) (a b : ImportDeclaration)
    (hbody : body = xs ++ .importDeclaration a :: ys ++ .otherStatement :: zs ++
      .importDeclaration b :: ws) :
    (programHandler ds resolves fix body).declFix = none ∧
    (programHandler ds resolves fix body).specFixes = none ∧
    (programHandler ds resolves fix body).reports =
      (programHandler ds resolves fix (body.filter isImportStatement)).reports := by
  subst hbody
  have hfix := extractImports_interleaved_fixable (a := a) (b := b) xs ys zs ws
  rcases programHandler_no_fix ds resolves fix _ hfix with ⟨hd, hs⟩
  refine ⟨hd, hs, ?_⟩
  have hIeq := extractImports_imports (xs ++ .importDeclaration a :: ys ++
    .otherStatement :: zs ++ .importDeclaration b :: ws)
  have hIlen : ¬ (extractImports (xs ++ .importDeclaration a :: ys ++
      .otherStatement :: zs ++ .importDeclaration b :: ws)).imports.length < 2 := by
    rw [hIeq]
    simp only [List.filterMap_append, List.filterMap_cons, importOfStatement,
      List.length_append, List.length_cons]
    omega
  have hlen : ¬ (xs ++ .importDeclaration a :: ys ++ .otherStatement :: zs ++
      .importDeclaration b :: ws).length < 2 := by
    simp only [List.length_append, List.length_cons]
    omega
  have hFeq : (extractImports ((xs ++ .importDeclaration a :: ys ++
      .otherStatement :: zs ++ .importDeclaration b :: ws).filter
        isImportStatement)).imports =
      (extractImports (xs ++ .importDeclaration a :: ys ++
        .otherStatement :: zs ++ .importDeclaration b :: ws)).imports := by
    rw [extractImports_imports, extractImports_imports, filterMap_filter_imports]
  have hFlen : ¬ (extractImports ((xs ++ .importDeclaration a :: ys ++
      .otherStatement :: zs ++ .importDeclaration b :: ws).filter
        isImportStatement)).imports.length < 2 := by
    rw [hFeq]
    exact hIlen
  have hFbody : ¬ ((xs ++ .importDeclaration a :: ys ++ .otherStatement :: zs ++
      .importDeclaration b :: ws).filter isImportStatement).length < 2 := by
    have hle := List.length_filterMap_le importOfStatement
      ((xs ++ .importDeclaration a :: ys ++ .otherStatement :: zs ++
        .importDeclaration b :: ws).filter isImportStatement)
    rw [← extractImports_imports] at hle
    omega
  rw [programHandler_reports ds resolves fix _ hlen hIlen,
    programHandler_reports ds resolves fix _ hFbody hFlen, hFeq]
  have hview := scanImports_fixable_view ds resolves
    (extractImports (xs ++ .importDeclaration a :: ys ++
      .otherStatement :: zs ++ .importDeclaration b :: ws)).fixable
    (extractImports ((xs ++ .importDeclaration a :: ys ++
      .otherStatement :: zs ++ .importDeclaration b :: ws).filter
        isImportStatement)).fixable
    (extractImports (xs ++ .importDeclaration a :: ys ++
      .otherStatement :: zs ++ .importDeclaration b :: ws)).imports
  exact hview.1

/-- Witness for C9_interleaved at a concrete module: a side-effect
import, an unrelated statement, then an external import. -/
theorem C9_interleaved_witness :
    (programHandler (jstr "source") (fun _ => true) true interleavedBodyEx).declFix =
      none ∧
    (programHandler (jstr "source") (fun _ => true) true interleavedBodyEx).specFixes =
      none ∧
    (programHandler (jstr "source") (fun _ => true) true interleavedBodyEx).reports =
      (programHandler (jstr "source") (fun _ => true) true
        (interleavedBodyEx.filter isImportStatement)).reports :=
  C9_interleaved (jstr "source") (fun _ => true) true interleavedBodyEx [] [] [] []
    declSideEffectEx declExternalEx rfl
